import Mathlib

/-!
Verification of the lipi text-analysis crate: a shallow embedding of the
Unicode property model (`src/unicode.rs`), the character and cluster info
models (`src/cluster/char.rs`, `src/cluster/info.rs`), the locale subtag
iterator (`src/locale/subtag.rs`), and spec-modelled components for parts of
the crate that are generated or not present in the source tree (the generated
`unicode_data` table, the `paragraph::LineBoundary` type, and the cluster
parser).  Machine integers (`u16`, `u32`, `usize`) are embedded as `Nat` with
explicit `% 2 ^ w` reductions at the points where the Rust code truncates.
-/

/-- Modelled from the spec: the `JoiningType` enumeration lives in the
generated `unicode_data` module, which is not present in the source tree.
The spec only requires a distinguished non-joining variant `U` (the default);
the remaining variants follow the standard Unicode joining types. -/
inductive JoiningType where
  | U
  | C
  | D
  | L
  | R
  | T
deriving DecidableEq, Repr

/-- Modelled from the spec: per-record flag set of the generated
`unicode_data::Record`.  `src/unicode.rs` reads these flags through accessor
methods of the same names; the record type itself is generated and absent
from the source tree. -/
structure RecordFlags where
  is_emoji : Bool
  is_extended_pictographic : Bool
  is_open_bracket : Bool
  is_close_bracket : Bool
  is_ignorable : Bool
  is_variation_selector : Bool
  contributes_to_shaping : Bool
  needs_decomp : Bool
deriving DecidableEq, Repr

/-- Modelled from the spec: the generated `unicode_data::Record` holds the
per-character property fields read by the accessors of `Properties`
(`src/unicode.rs`).  Enumerated property values other than the joining type
are abstracted as `Nat` ordinals; the claims under verification never depend
on their concrete enumerations. -/
structure Record where
  category : Nat
  block : Nat
  script : Nat
  combining_class : Nat
  bidi_class : Nat
  joining_type : JoiningType
  cluster_break : Nat
  word_break : Nat
  line_break : Nat
  flags : RecordFlags
  use_class : Nat
  myanmar_class : Nat
deriving DecidableEq, Repr

/-- The default ("unassigned") record at index 0 of the table. -/
def Record.unassigned : Record :=
  { category := 0
    block := 0
    script := 0
    combining_class := 0
    bidi_class := 0
    joining_type := JoiningType.U
    cluster_break := 0
    word_break := 0
    line_break := 0
    flags :=
      { is_emoji := false
        is_extended_pictographic := false
        is_open_bracket := false
        is_close_bracket := false
        is_ignorable := false
        is_variation_selector := false
        contributes_to_shaping := true
        needs_decomp := false }
    use_class := 0
    myanmar_class := 0 }

/-- Modelled from the spec: the static `RECORDS` table of the generated
`unicode_data` module ("the generated Unicode property table itself ... is
consumed as an opaque O(1) lookup").  A small concrete table stands in for
the generated data; index 0 is the default/"unassigned" record. -/
def RECORDS : List Record :=
  [ Record.unassigned
  , { Record.unassigned with
        category := 1
        script := 2
        combining_class := 0
        joining_type := JoiningType.D
        flags := { Record.unassigned.flags with is_emoji := true } }
  , { Record.unassigned with
        category := 2
        script := 3
        combining_class := 230
        flags := { Record.unassigned.flags with is_ignorable := true } } ]

/-- Modelled from the spec: the codepoint-range table behind
`unicode_data::get_record_index`.  Each entry maps an inclusive codepoint
range to a record index that was validated against `RECORDS` when the table
was generated. -/
def RANGES : List (Nat × Nat × Nat) :=
  [(0x41, 0x5A, 1), (0x300, 0x36F, 2)]

/-- Modelled from the spec: `unicode_data::get_record_index` — "an O(1) table
lookup [that] never fails (codepoints outside assigned ranges map to a
default/'unassigned' record)".  The index stored in the table was validated
at generation time; the validation is made explicit here so that the
in-bounds invariant is provable. -/
def get_record_index (ch : Nat) : Nat :=
  match RANGES.find? (fun r => decide (r.1 ≤ ch) && decide (ch ≤ r.2.1)) with
  | some r => if r.2.2 < RECORDS.length then r.2.2 else 0
  | none => 0

/-- `RECORD_MASK` from `src/unicode.rs`. -/
def RECORD_MASK : Nat := 0x1FFF

/-- `BOUNDARY_SHIFT` from `src/unicode.rs`. -/
def BOUNDARY_SHIFT : Nat := 13

/-- `Properties` from `src/unicode.rs`: a compact `u16` holding a 13-bit
record index and 3 boundary bits.  The `u16` is embedded as a `Nat`. -/
structure Properties where
  val : Nat
deriving DecidableEq, Repr

instance : Inhabited Properties := ⟨⟨0⟩⟩

/-- `Properties::new` from `src/unicode.rs`: `Self(get_record_index(ch as usize) as u16)`.
The `as u16` cast truncates modulo `2 ^ 16`. -/
def Properties.new (ch : Nat) : Properties :=
  ⟨get_record_index ch % 65536⟩

/-- The record index held in the low 13 bits (`self.0 & RECORD_MASK`). -/
def Properties.recordIndex (p : Properties) : Nat :=
  p.val &&& RECORD_MASK

/-- `Properties::record` from `src/unicode.rs`: the unchecked array access
`RECORDS.get_unchecked((self.0 & RECORD_MASK) as usize)`, embedded as a
fallible lookup; claim C5 is that this lookup never fails on values the
public API can produce. -/
def Properties.record? (p : Properties) : Option Record :=
  RECORDS[p.recordIndex]?

/-- Total version of `Properties::record` used by the accessors, defaulting
to the unassigned record out of bounds. -/
def Properties.record (p : Properties) : Record :=
  RECORDS.getD p.recordIndex Record.unassigned

def Properties.category (p : Properties) : Nat := p.record.category
def Properties.block (p : Properties) : Nat := p.record.block
def Properties.script (p : Properties) : Nat := p.record.script
def Properties.combining_class (p : Properties) : Nat := p.record.combining_class
def Properties.bidi_class (p : Properties) : Nat := p.record.bidi_class
def Properties.joining_type (p : Properties) : JoiningType := p.record.joining_type
def Properties.cluster_break (p : Properties) : Nat := p.record.cluster_break
def Properties.word_break (p : Properties) : Nat := p.record.word_break
def Properties.line_break (p : Properties) : Nat := p.record.line_break
def Properties.is_emoji (p : Properties) : Bool := p.record.flags.is_emoji
def Properties.is_extended_pictographic (p : Properties) : Bool :=
  p.record.flags.is_extended_pictographic
def Properties.is_open_bracket (p : Properties) : Bool := p.record.flags.is_open_bracket
def Properties.is_close_bracket (p : Properties) : Bool := p.record.flags.is_close_bracket
def Properties.is_ignorable (p : Properties) : Bool := p.record.flags.is_ignorable
def Properties.is_variation_selector (p : Properties) : Bool :=
  p.record.flags.is_variation_selector
def Properties.contributes_to_shaping (p : Properties) : Bool :=
  p.record.flags.contributes_to_shaping

/-- `Properties::boundary` from `src/unicode.rs`: `self.0 >> BOUNDARY_SHIFT`. -/
def Properties.boundary (p : Properties) : Nat :=
  p.val >>> BOUNDARY_SHIFT

/-- `Properties::set_boundary` from `src/unicode.rs`:
`self.0 = (self.0 & RECORD_MASK) | (boundary & 0b111) << BOUNDARY_SHIFT`.
The shifted operand is at most `7 <<< 13 < 2 ^ 16`, so the `u16` arithmetic
does not truncate. -/
def Properties.set_boundary (p : Properties) (boundary : Nat) : Properties :=
  ⟨(p.val &&& RECORD_MASK) ||| ((boundary &&& 7) <<< BOUNDARY_SHIFT)⟩

/-- `Properties::with_boundary` from `src/unicode.rs`. -/
def Properties.with_boundary (p : Properties) (b : Nat) : Properties :=
  p.set_boundary b

/-- Modelled from the spec: `paragraph::LineBoundary` ("line boundary state
(`LineBoundary`: none/soft/hard, 2 bits)"); the `paragraph` module is not
present in the source tree. -/
inductive LineBoundary where
  | none
  | soft
  | hard
deriving DecidableEq, Repr

/-- The 2-bit encoding of a line boundary (`LineBoundary as u16`). -/
def LineBoundary.toRaw : LineBoundary → Nat
  | .none => 0
  | .soft => 1
  | .hard => 2

/-- Modelled from the spec: `LineBoundary::from_raw`.  The spec requires a
cluster's line boundary to be both the bitwise-OR merge of its constituents'
bits and their maximum-severity merge (hard > soft > none); the two agree
exactly when the unused encoding `3` (= soft-bit OR hard-bit) decodes to
`hard`. -/
def LineBoundary.from_raw (bits : Nat) : LineBoundary :=
  match bits &&& 3 with
  | 0 => .none
  | 1 => .soft
  | 2 => .hard
  | _ => .hard

/-- Modelled from the spec: the maximum-severity merge of two line boundary
states, with hard > soft > none. -/
def LineBoundary.maxSeverity (a b : LineBoundary) : LineBoundary :=
  if a.toRaw ≤ b.toRaw then b else a

/-- `CharInfo` from `src/cluster/info.rs`: wraps `Properties`. -/
structure CharInfo where
  props : Properties
deriving DecidableEq, Repr

instance : Inhabited CharInfo := ⟨⟨⟨0⟩⟩⟩

/-- `CharInfo::new` from `src/cluster/info.rs`:
`let boundary_bits = (is_word_boundary as u16) << 2 | line_boundary as u16;
Self(properties.with_boundary(boundary_bits))`. -/
def CharInfo.new (properties : Properties) (is_word_boundary : Bool)
    (line_boundary : LineBoundary) : CharInfo :=
  ⟨properties.with_boundary
    (((cond is_word_boundary 1 0) <<< 2) ||| line_boundary.toRaw)⟩

/-- `CharInfo::properties` from `src/cluster/info.rs`. -/
def CharInfo.properties (c : CharInfo) : Properties := c.props

/-- `CharInfo::is_word_boundary` from `src/cluster/info.rs`:
`self.0.boundary() & 0b100 != 0`. -/
def CharInfo.is_word_boundary (c : CharInfo) : Bool :=
  c.props.boundary &&& 4 != 0

/-- `CharInfo::line_boundary` from `src/cluster/info.rs`:
`LineBoundary::from_raw(self.0.boundary() & 0b11)`. -/
def CharInfo.line_boundary (c : CharInfo) : LineBoundary :=
  LineBoundary.from_raw (c.props.boundary &&& 3)

/-- `BOUND_SHIFT` from `src/cluster/info.rs`. -/
def BOUND_SHIFT : Nat := 13

/-- `SPACE_SHIFT` from `src/cluster/info.rs`. -/
def SPACE_SHIFT : Nat := 1

/-- `EMOJI_SHIFT` from `src/cluster/info.rs`. -/
def EMOJI_SHIFT : Nat := 8

/-- `SPACE_MASK` from `src/cluster/info.rs`. -/
def SPACE_MASK : Nat := 7

/-- `EMOJI_MASK` from `src/cluster/info.rs`. -/
def EMOJI_MASK : Nat := 3

/-- `Emoji` from `src/cluster/info.rs`. -/
inductive Emoji where
  | none
  | default
  | text
  | color
deriving DecidableEq, Repr

/-- `Emoji::from_raw` from `src/cluster/info.rs`. -/
def Emoji.from_raw (bits : Nat) : Emoji :=
  match bits &&& 3 with
  | 0 => .none
  | 1 => .default
  | 2 => .text
  | _ => .color

/-- `Whitespace` from `src/cluster/info.rs`. -/
inductive Whitespace where
  | none
  | space
  | noBreakSpace
  | tab
  | newline
  | other
deriving DecidableEq, Repr

/-- `Whitespace::from_raw` from `src/cluster/info.rs`: the catch-all arm maps
the unused raw fields 6 and 7 to `None`. -/
def Whitespace.from_raw (bits : Nat) : Whitespace :=
  match bits &&& 7 with
  | 0 => .none
  | 1 => .space
  | 2 => .noBreakSpace
  | 3 => .tab
  | 4 => .newline
  | 5 => .other
  | _ => .none

/-- `ClusterInfo` from `src/cluster/info.rs`: a public `u16` bit field,
embedded as a `Nat` reduced modulo `2 ^ 16` wherever the Rust `u16`
arithmetic truncates. -/
structure ClusterInfo where
  val : Nat
deriving DecidableEq, Repr

/-- `ClusterInfo::is_broken` from `src/cluster/info.rs`: `self.0 & 1 != 0`. -/
def ClusterInfo.is_broken (i : ClusterInfo) : Bool :=
  i.val &&& 1 != 0

/-- `ClusterInfo::is_emoji` from `src/cluster/info.rs`. -/
def ClusterInfo.is_emoji (i : ClusterInfo) : Bool :=
  (i.val >>> EMOJI_SHIFT &&& EMOJI_MASK) != 0

/-- `ClusterInfo::emoji` from `src/cluster/info.rs`. -/
def ClusterInfo.emoji (i : ClusterInfo) : Emoji :=
  Emoji.from_raw (i.val >>> EMOJI_SHIFT &&& EMOJI_MASK)

/-- `ClusterInfo::is_whitespace` from `src/cluster/info.rs`. -/
def ClusterInfo.is_whitespace (i : ClusterInfo) : Bool :=
  (i.val >>> SPACE_SHIFT &&& SPACE_MASK) != 0

/-- `ClusterInfo::whitespace` from `src/cluster/info.rs`. -/
def ClusterInfo.whitespace (i : ClusterInfo) : Whitespace :=
  Whitespace.from_raw (i.val >>> SPACE_SHIFT &&& SPACE_MASK)

/-- `ClusterInfo::is_boundary` from `src/cluster/info.rs`. -/
def ClusterInfo.is_boundary (i : ClusterInfo) : Bool :=
  (i.val >>> BOUND_SHIFT) != 0

/-- `ClusterInfo::is_word_boundary` from `src/cluster/info.rs`:
`self.0 >> BOUND_SHIFT & 0b100 != 0`. -/
def ClusterInfo.is_word_boundary (i : ClusterInfo) : Bool :=
  i.val >>> BOUND_SHIFT &&& 4 != 0

/-- `ClusterInfo::line_boundary` from `src/cluster/info.rs`:
`LineBoundary::from_raw((self.0 >> BOUND_SHIFT) & 0b11)`. -/
def ClusterInfo.line_boundary (i : ClusterInfo) : LineBoundary :=
  LineBoundary.from_raw (i.val >>> BOUND_SHIFT &&& 3)

/-- `ClusterInfo::merge_boundary` from `src/cluster/info.rs`:
`let bits = ((self.0 >> BOUND_SHIFT) | boundary) << BOUND_SHIFT;
self.0 = ((self.0 << 3) >> 3) | bits;` — both `u16` left shifts truncate
modulo `2 ^ 16`. -/
def ClusterInfo.merge_boundary (i : ClusterInfo) (boundary : Nat) : ClusterInfo :=
  ⟨(((i.val <<< 3) % 65536) >>> 3) |||
    ((((i.val >>> BOUND_SHIFT) ||| boundary) <<< BOUND_SHIFT) % 65536)⟩

/-- `ShapeClass` from `src/cluster/char.rs`: 16 variants, declaration order
is shaping priority (the Rust `derive(PartialOrd, Ord)` orders by
discriminant). -/
inductive ShapeClass where
  | reph
  | pref
  | kinzi
  | base
  | mark
  | halant
  | medialRa
  | vmPre
  | vPre
  | vBlw
  | anusvara
  | zwj
  | zwnj
  | control
  | vs
  | other
deriving DecidableEq, Repr

/-- The `repr(u8)` discriminant of a `ShapeClass`, which the derived Rust
ordering compares. -/
def ShapeClass.toNat : ShapeClass → Nat
  | .reph => 0
  | .pref => 1
  | .kinzi => 2
  | .base => 3
  | .mark => 4
  | .halant => 5
  | .medialRa => 6
  | .vmPre => 7
  | .vPre => 8
  | .vBlw => 9
  | .anusvara => 10
  | .zwj => 11
  | .zwnj => 12
  | .control => 13
  | .vs => 14
  | .other => 15

/-- The derived `Ord` of `ShapeClass` in `src/cluster/char.rs`, as a
decidable relation on discriminants. -/
def ShapeClass.le (a b : ShapeClass) : Bool :=
  a.toNat ≤ b.toNat

/-- `ShapeClass::default` (`Default` impl) from `src/cluster/char.rs`. -/
def ShapeClass.default : ShapeClass := .base

/-- The 16 `ShapeClass` variants in declaration order. -/
def ShapeClass.all : List ShapeClass :=
  [.reph, .pref, .kinzi, .base, .mark, .halant, .medialRa, .vmPre,
   .vPre, .vBlw, .anusvara, .zwj, .zwnj, .control, .vs, .other]

instance : Fintype ShapeClass :=
  ⟨⟨ShapeClass.all, by decide⟩, fun c => by cases c <;> decide⟩

/-- `UserData` from `src/cluster/mod.rs`: a `u32`, embedded as `Nat`. -/
def UserData : Type := Nat

/-- `Char` from `src/cluster/char.rs`: the output unit of the parser. -/
structure Char' where
  ch : Nat
  offset : Nat
  shape_class : ShapeClass
  joining_type : JoiningType
  ignorable : Bool
  contributes_to_shaping : Bool
  glyph_id : Nat
  data : Nat
deriving DecidableEq, Repr

/-- `Char::default` (`Default` impl) from `src/cluster/char.rs`. -/
def Char'.default : Char' :=
  { ch := 0
    shape_class := ShapeClass.base
    joining_type := JoiningType.U
    ignorable := false
    contributes_to_shaping := true
    glyph_id := 0
    data := 0
    offset := 0 }

/-- `SourceChar` from `src/cluster/char.rs`: the input unit of the parser. -/
structure SourceChar where
  ch : Nat
  offset : Nat
  len : Nat
  info : CharInfo
  data : Nat
deriving DecidableEq, Repr

/-- `SourceChar::default` (`Default` impl) from `src/cluster/char.rs`. -/
def SourceChar.default : SourceChar :=
  { ch := 0
    offset := 0
    len := 1
    info := ⟨⟨0⟩⟩
    data := 0 }

/-! ## Locale subtag iterator (`src/locale/subtag.rs`)

The iterator is embedded over the locale's byte sequence (`List Nat`):
`str::split('-')` yields the byte-delimited parts, `str::len` is the byte
length, and `str::get(start..end)` is a fallible slice. -/

/-- `u8::is_ascii_alphabetic`. -/
def isAsciiAlphabetic (b : Nat) : Bool :=
  (65 ≤ b && b ≤ 90) || (97 ≤ b && b ≤ 122)

/-- `u8::is_ascii_digit`. -/
def isAsciiDigit (b : Nat) : Bool :=
  48 ≤ b && b ≤ 57

/-- `u8::is_ascii_alphanumeric`. -/
def isAsciiAlphanumeric (b : Nat) : Bool :=
  isAsciiAlphabetic b || isAsciiDigit b

/-- `str::split(sep)` over a byte sequence: always yields at least one part;
an empty input yields one empty part. -/
def splitBytes (sep : Nat) : List Nat → List (List Nat)
  | [] => [[]]
  | b :: rest =>
    match splitBytes sep rest with
    | [] => [[]]
    | cur :: more =>
      if b = sep then [] :: cur :: more else (b :: cur) :: more

/-- `str::get(start..end)` over a byte sequence: `none` when the range is
invalid, otherwise the sub-sequence. -/
def sliceGet (src : List Nat) (start stop : Nat) : Option (List Nat) :=
  if start ≤ stop ∧ stop ≤ src.length then
    some ((src.drop start).take (stop - start))
  else
    none

/-- `Subtag` from `src/locale/subtag.rs`; payloads are byte sequences. -/
inductive Subtag where
  | language (s : List Nat)
  | script (s : List Nat)
  | region (s : List Nat)
  | variant (s : List Nat)
  | extension (s : List Nat)
  | private' (s : List Nat)
deriving DecidableEq, Repr

/-- `ParseStage` from `src/locale/subtag.rs`. -/
inductive ParseStage where
  | language
  | script
  | region
  | variant
  | extension
  | private'
deriving DecidableEq, Repr

/-- `Subtags` from `src/locale/subtag.rs`: the iterator state.  `parts` is
the remaining suspension of the peekable `split('-')` iterator. -/
structure Subtags where
  stage : ParseStage
  source : List Nat
  parts : List (List Nat)
  pos : Nat
deriving DecidableEq, Repr

/-- `subtags(locale)` from `src/locale/subtag.rs`. -/
def subtags (locale : List Nat) : Subtags :=
  { stage := ParseStage.language
    source := locale
    parts := splitBytes 45 locale
    pos := 0 }

/-- The `ParseStage::Language` arm of `Subtags::next`: sets the stage to
`Script`, then returns `Language(part)` when the part length is 2 or 3 and
`None` otherwise. -/
def languageArm (t : Subtags) (part : List Nat) : Option Subtag × Subtags :=
  let t := { t with stage := ParseStage.script }
  if part.length = 2 ∨ part.length = 3 then
    (some (Subtag.language part), { t with pos := t.pos + part.length + 1 })
  else
    (none, t)

/-- The `ParseStage::Extension` arm's peek-and-consume loop: consumes parts
of length 2..=8, stops at a length-1 part (flagging a following private-use
section when that part is `x`) or any other part.  Returns the remaining
parts, the accumulated end position, and the private-use flag. -/
def extConsume : List (List Nat) → Nat → List (List Nat) × Nat × Bool
  | [], e => ([], e, false)
  | sub :: rest, e =>
    if 2 ≤ sub.length ∧ sub.length ≤ 8 then
      extConsume rest (e + sub.length + 1)
    else if sub.length = 1 then
      (sub :: rest, e, sub.headD 0 = 120)
    else
      (sub :: rest, e, false)

/-- The `ParseStage::Private` arm's peek-and-consume loop: consumes parts of
length 2..=8 and length-1 parts other than `x`, stops at `x` or any other
part.  Returns the remaining parts and the accumulated end position. -/
def privConsume : List (List Nat) → Nat → List (List Nat) × Nat
  | [], e => ([], e)
  | sub :: rest, e =>
    if 2 ≤ sub.length ∧ sub.length ≤ 8 then
      privConsume rest (e + sub.length + 1)
    else if sub.length = 1 then
      if sub.headD 0 = 120 then (sub :: rest, e) else privConsume rest (e + sub.length + 1)
    else
      (sub :: rest, e)

/-- The `ParseStage::Extension` arm of `Subtags::next`. -/
def extensionArm (t : Subtags) (part : List Nat) : Option Subtag × Subtags :=
  if part.length ≠ 1 then
    (none, t)
  else
    let start := t.pos
    let r := extConsume t.parts (start + part.length + 1)
    let t := { t with
      parts := r.1
      stage := if r.2.2 then ParseStage.private' else t.stage }
    let stop := min (r.2.1 - 1) t.source.length
    match sliceGet t.source start stop with
    | none => (none, t)
    | some tag => (some (Subtag.extension tag), { t with pos := stop + 1 })

/-- The `ParseStage::Private` arm of `Subtags::next`. -/
def privateArm (t : Subtags) (part : List Nat) : Option Subtag × Subtags :=
  if part.length ≠ 1 ∨ part.headD 0 ≠ 120 then
    (none, t)
  else
    let start := t.pos
    let r := privConsume t.parts (start + part.length + 1)
    let t := { t with parts := r.1 }
    let stop := min (r.2 - 1) t.source.length
    match sliceGet t.source start stop with
    | none => (none, t)
    | some tag => (some (Subtag.private' tag), { t with pos := stop + 1 })

/-- The `ParseStage::Variant` arm of `Subtags::next`; a length-1 part routes
to the `Extension` or `Private` arm (the Rust loop re-dispatches after the
stage is updated). -/
def variantArm (t : Subtags) (part : List Nat) : Option Subtag × Subtags :=
  match part.length with
  | 4 =>
    if part.enum.all
        (fun p => (p.1 == 0 && isAsciiDigit p.2) || (decide (p.1 > 0) && isAsciiAlphanumeric p.2)) then
      (some (Subtag.variant part), { t with pos := t.pos + part.length + 1 })
    else
      (none, t)
  | 5 | 6 | 7 | 8 =>
    if part.all isAsciiAlphanumeric then
      (some (Subtag.variant part), { t with pos := t.pos + part.length + 1 })
    else
      (none, t)
  | 1 =>
    if part.headD 0 = 120 then
      privateArm { t with stage := ParseStage.private' } part
    else
      extensionArm { t with stage := ParseStage.extension } part
  | _ => (none, t)

/-- The `ParseStage::Region` arm of `Subtags::next`; on no match the Rust
loop re-dispatches with the stage advanced to `Variant`. -/
def regionArm (t : Subtags) (part : List Nat) : Option Subtag × Subtags :=
  let t := { t with stage := ParseStage.variant }
  if part.length = 2 ∧ part.all isAsciiAlphabetic then
    (some (Subtag.region part), { t with pos := t.pos + part.length + 1 })
  else if part.length = 3 ∧ part.all isAsciiDigit then
    (some (Subtag.region part), { t with pos := t.pos + part.length + 1 })
  else
    variantArm t part

/-- The `ParseStage::Script` arm of `Subtags::next`; on no match the Rust
loop re-dispatches with the stage advanced to `Region`. -/
def scriptArm (t : Subtags) (part : List Nat) : Option Subtag × Subtags :=
  let t := { t with stage := ParseStage.region }
  if part.length = 4 ∧ part.all isAsciiAlphabetic then
    (some (Subtag.script part), { t with pos := t.pos + part.length + 1 })
  else
    regionArm t part

/-- `Subtags::next` from `src/locale/subtag.rs`: takes the next part (or
returns `None` when the part iterator is exhausted) and runs the loop, whose
fall-through chain is unfolded into the arm functions above. -/
def Subtags.next (t : Subtags) : Option Subtag × Subtags :=
  match t.parts with
  | [] => (none, t)
  | part :: rest =>
    let t1 := { t with parts := rest }
    match t.stage with
    | ParseStage.language => languageArm t1 part
    | ParseStage.script => scriptArm t1 part
    | ParseStage.region => regionArm t1 part
    | ParseStage.variant => variantArm t1 part
    | ParseStage.extension => extensionArm t1 part
    | ParseStage.private' => privateArm t1 part

/-- The state after `n` calls to `Subtags::next` starting from
`subtags locale`. -/
def subtagsStateAfter (locale : List Nat) : Nat → Subtags
  | 0 => subtags locale
  | n + 1 => (subtagsStateAfter locale n).next.2

/-- The item returned by call number `n` (0-based) to `Subtags::next`. -/
def subtagsOutput (locale : List Nat) (n : Nat) : Option Subtag :=
  (subtagsStateAfter locale n).next.1

/-- Whether an iterator output is a `Subtag::Language` item. -/
def isLanguageTag : Option Subtag → Bool
  | some (Subtag.language _) => true
  | _ => false

/-! ## Cluster parser model

`src/cluster/mod.rs` declares the submodules `cluster`, `complex`, `myanmar`,
`parse` and `simple` and re-exports `Cluster`, `MAX_CLUSTER_SIZE` and
`Parser`, but those files are not present in the source tree; the parser is
therefore modelled from the spec (sections 4.2, 4.4 and 7). -/

/-- Modelled from the spec: `Cluster` (`src/cluster/cluster.rs` is absent) —
"an ordered, bounded sequence of `Char` ... plus a `ClusterInfo`". -/
structure Cluster where
  info : ClusterInfo
  chars : List Char'
deriving DecidableEq, Repr

/-- Modelled from the spec: conversion of a consumed `SourceChar` to an
output `Char` (section 4.2): the shape-class assignment is abstracted as the
parameter `classify` (it is script-specific and irrelevant to the claims),
the joining type is "copied verbatim from `Properties`", ignorable
characters are "flagged `ignorable = true` and `contributes_to_shaping =
false`", the glyph id is the placeholder 0, and the character value, source
offset and user data are carried over. -/
def toChar (classify : SourceChar → ShapeClass) (s : SourceChar) : Char' :=
  { ch := s.ch
    offset := s.offset
    shape_class := classify s
    joining_type := s.info.props.joining_type
    ignorable := s.info.props.is_ignorable
    contributes_to_shaping := s.info.props.contributes_to_shaping
    glyph_id := 0
    data := s.data }

/-- Modelled from the spec: the aggregate `ClusterInfo` of a finalized
cluster is built by folding `ClusterInfo::merge_boundary` (from
`src/cluster/info.rs`) over the constituent characters' boundary bits,
starting from an info value with clear boundary bits ("boundary bits are the
bitwise-OR merge of all constituent characters' boundary bits").  The
whitespace/emoji/broken flags of the aggregate are not modelled; the claims
under verification do not depend on them. -/
def clusterInfoOf (g : List SourceChar) : ClusterInfo :=
  g.foldl (fun i s => i.merge_boundary s.info.props.boundary) ⟨0⟩

/-- Modelled from the spec: finalization of one accumulated run of source
characters into an emitted `Cluster`. -/
def emitCluster (classify : SourceChar → ShapeClass) (g : List SourceChar) : Cluster :=
  { info := clusterInfoOf g
    chars := g.map (toChar classify) }

/-- Modelled from the spec: the accumulation loop shared by the engines.
`cont buf c` decides whether `c` continues the cluster accumulated in `buf`
(the grapheme-cluster-break state table of section 4.2, abstracted); a
cluster is force-finalized when the buffer has reached `max` characters
("the engine force-finalizes the current cluster at the limit and starts a
new one", section 7). -/
def segmentGo (cont : List SourceChar → SourceChar → Bool) (max : Nat) :
    List SourceChar → List SourceChar → List (List SourceChar)
  | buf, [] => [buf]
  | buf, c :: rest =>
    if max ≤ buf.length ∨ ¬ cont buf c then
      buf :: segmentGo cont max [c] rest
    else
      segmentGo cont max (buf ++ [c]) rest

/-- Modelled from the spec: segmentation of the whole input into cluster
runs; an empty input yields no clusters ("`next()` returns `None` exactly
when the input cursor is exhausted", "never return an empty cluster once the
input is non-empty"). -/
def segmentRuns (cont : List SourceChar → SourceChar → Bool) (max : Nat) :
    List SourceChar → List (List SourceChar)
  | [] => []
  | c :: rest => segmentGo cont max [c] rest

/-- Modelled from the spec: the cluster sequence produced by pulling the
`Parser` (`src/cluster/parse.rs` is absent) to exhaustion.  `max` stands for
the `MAX_CLUSTER_SIZE` constant (its value is not recorded in the available
source), `cont` for the engine's continuation rule and `classify` for the
engine's shape-class assignment. -/
def parseClusters (classify : SourceChar → ShapeClass)
    (cont : List SourceChar → SourceChar → Bool) (max : Nat)
    (input : List SourceChar) : List Cluster :=
  (segmentRuns cont max input).map (emitCluster classify)

/-! ## Bitwise helper lemmas -/

theorem lor_mod_two_pow (a b n : Nat) :
    (a ||| b) % 2 ^ n = (a % 2 ^ n) ||| (b % 2 ^ n) := by
  apply Nat.eq_of_testBit_eq
  intro i
  simp [Nat.testBit_mod_two_pow, Nat.testBit_or, Bool.and_or_distrib_left]

theorem shiftRight_lor (a b n : Nat) :
    (a ||| b) >>> n = (a >>> n) ||| (b >>> n) := by
  apply Nat.eq_of_testBit_eq
  intro i
  simp [Nat.testBit_shiftRight, Nat.testBit_or]

theorem land_lor_distrib (a b m : Nat) :
    (a ||| b) &&& m = (a &&& m) ||| (b &&& m) := by
  apply Nat.eq_of_testBit_eq
  intro i
  simp [Nat.testBit_and, Nat.testBit_or, Bool.and_or_distrib_right]

theorem land_four_bne_zero (x : Nat) : (x &&& 4 != 0) = x.testBit 2 := by
  have h : x &&& 4 = (x.testBit 2).toNat * 4 := by
    have h2 := Nat.and_two_pow x 2
    norm_num at h2
    exact h2
  cases hx : x.testBit 2 <;> simp [h, hx]

theorem land_seven_eq_mod (x : Nat) : x &&& 7 = x % 8 := by
  have h := Nat.and_pow_two_sub_one_eq_mod x 3
  norm_num at h
  exact h

theorem land_three_eq_mod (x : Nat) : x &&& 3 = x % 4 := by
  have h := Nat.and_pow_two_sub_one_eq_mod x 2
  norm_num at h
  exact h

theorem mod_eight_land_three (x : Nat) : (x % 8) &&& 3 = x &&& 3 := by
  rw [land_three_eq_mod, land_three_eq_mod]
  omega

/-! ## Claim C8 — `Char` defaults and `ShapeClass` ordering -/

/-- Claim C8: `Char::default()` has shape class `Base`, joining type `U`,
glyph id 0, `ignorable == false` and `contributes_to_shaping == true`; and
`ShapeClass` consists of exactly the 16 variants in the order Reph, Pref,
Kinzi, Base, Mark, Halant, MedialRa, VmPre, VPre, VBlw, Anusvara, Zwj, Zwnj,
Control, Vs, Other (discriminants 0..15 in that order), so the derived
ordering ranks Reph lowest and Other highest. -/
theorem claim_C8 :
    Char'.default.shape_class = ShapeClass.base
    ∧ Char'.default.joining_type = JoiningType.U
    ∧ Char'.default.glyph_id = 0
    ∧ Char'.default.ignorable = false
    ∧ Char'.default.contributes_to_shaping = true
    ∧ ShapeClass.all =
        [ShapeClass.reph, ShapeClass.pref, ShapeClass.kinzi, ShapeClass.base,
         ShapeClass.mark, ShapeClass.halant, ShapeClass.medialRa, ShapeClass.vmPre,
         ShapeClass.vPre, ShapeClass.vBlw, ShapeClass.anusvara, ShapeClass.zwj,
         ShapeClass.zwnj, ShapeClass.control, ShapeClass.vs, ShapeClass.other]
    ∧ ShapeClass.all.map ShapeClass.toNat = List.range 16
    ∧ ShapeClass.all.Nodup
    ∧ (∀ c : ShapeClass, c ∈ ShapeClass.all)
    ∧ (∀ c : ShapeClass, ShapeClass.le ShapeClass.reph c ∧ ShapeClass.le c ShapeClass.other) := by
  refine ⟨rfl, rfl, rfl, rfl, rfl, rfl, by decide, by decide, ?_, ?_⟩
  · intro c
    cases c <;> decide
  · intro c
    cases c <;> exact ⟨by decide, by decide⟩

/-! ## Claim C4 — `ClusterInfo` bit layout -/

/-- The contiguous bit field of `v` starting at bit `lo`, `width` bits wide
(the spec-side reading of a bit-layout description). -/
def bitsField (v lo width : Nat) : Nat :=
  (v >>> lo) % 2 ^ width

/-- Claim C4: for every `ClusterInfo` value `v`, `is_broken` reads exactly
bit 0; `whitespace` decodes exactly bits 1–3 as
none/space/nbsp/tab/newline/other; `emoji` decodes exactly bits 8–9 as
none/default/text/color; and the boundary state occupies bits 13–15, with
bit 15 the word boundary (read by `is_word_boundary`) and bits 13–14 the
line boundary (read by `line_boundary`). -/
theorem claim_C4 (v : Nat) :
    ClusterInfo.is_broken ⟨v⟩ = v.testBit 0
    ∧ ClusterInfo.whitespace ⟨v⟩ = Whitespace.from_raw (bitsField v 1 3)
    ∧ ClusterInfo.is_whitespace ⟨v⟩ = (bitsField v 1 3 != 0)
    ∧ ClusterInfo.emoji ⟨v⟩ = Emoji.from_raw (bitsField v 8 2)
    ∧ ClusterInfo.is_emoji ⟨v⟩ = (bitsField v 8 2 != 0)
    ∧ ClusterInfo.is_word_boundary ⟨v⟩ = v.testBit 15
    ∧ ClusterInfo.line_boundary ⟨v⟩ = LineBoundary.from_raw (bitsField v 13 2)
    ∧ Whitespace.from_raw 0 = Whitespace.none
    ∧ Whitespace.from_raw 1 = Whitespace.space
    ∧ Whitespace.from_raw 2 = Whitespace.noBreakSpace
    ∧ Whitespace.from_raw 3 = Whitespace.tab
    ∧ Whitespace.from_raw 4 = Whitespace.newline
    ∧ Whitespace.from_raw 5 = Whitespace.other
    ∧ Emoji.from_raw 0 = Emoji.none
    ∧ Emoji.from_raw 1 = Emoji.default
    ∧ Emoji.from_raw 2 = Emoji.text
    ∧ Emoji.from_raw 3 = Emoji.color := by
  have hmask7 : ∀ x : Nat, x &&& 7 = x % 2 ^ 3 := by
    intro x
    have h := Nat.and_pow_two_sub_one_eq_mod x 3
    norm_num at h ⊢
    exact h
  have hmask3 : ∀ x : Nat, x &&& 3 = x % 2 ^ 2 := by
    intro x
    have h := Nat.and_pow_two_sub_one_eq_mod x 2
    norm_num at h ⊢
    exact h
  refine ⟨?_, ?_, ?_, ?_, ?_, ?_, ?_, rfl, rfl, rfl, rfl, rfl, rfl, rfl, rfl, rfl, rfl⟩
  · -- is_broken reads bit 0
    show (v &&& 1 != 0) = v.testBit 0
    rw [Nat.and_one_is_mod]
    rcases Nat.mod_two_eq_zero_or_one v with h | h <;>
      simp [h, Nat.testBit_to_div_mod]
  · -- whitespace decodes bits 1-3
    show Whitespace.from_raw (v >>> SPACE_SHIFT &&& SPACE_MASK) = _
    unfold SPACE_SHIFT SPACE_MASK bitsField
    rw [show (7 : Nat) = 7 from rfl, hmask7]
  · show ((v >>> SPACE_SHIFT &&& SPACE_MASK) != 0) = _
    unfold SPACE_SHIFT SPACE_MASK bitsField
    rw [hmask7]
  · -- emoji decodes bits 8-9
    show Emoji.from_raw (v >>> EMOJI_SHIFT &&& EMOJI_MASK) = _
    unfold EMOJI_SHIFT EMOJI_MASK bitsField
    rw [hmask3]
  · show ((v >>> EMOJI_SHIFT &&& EMOJI_MASK) != 0) = _
    unfold EMOJI_SHIFT EMOJI_MASK bitsField
    rw [hmask3]
  · -- word boundary is bit 15
    show (v >>> BOUND_SHIFT &&& 4 != 0) = v.testBit 15
    unfold BOUND_SHIFT
    rw [land_four_bne_zero]
    simp [Nat.testBit_shiftRight]
  · -- line boundary is bits 13-14
    show LineBoundary.from_raw (v >>> BOUND_SHIFT &&& 3) = _
    unfold BOUND_SHIFT bitsField
    rw [hmask3]

/-! ## Claim C9 — `is_whitespace` versus `whitespace` -/

/-- Claim C9 counterexample: the claimed equivalence "`is_whitespace(v)` iff
`whitespace(v) ≠ None`" fails at the raw value 12 (whitespace field 6): the
field is nonzero so `is_whitespace` is true, but `Whitespace::from_raw` maps
the unused encoding 6 to `None`. -/
theorem claim_C9_counterexample :
    ¬ (ClusterInfo.is_whitespace ⟨12⟩ = true ↔
        ClusterInfo.whitespace ⟨12⟩ ≠ Whitespace.none) := by
  decide

/-- Claim C9 (amended): for every `ClusterInfo` value whose 3-bit whitespace
field (bits 1–3) is at most 5 — which covers every value `set_space` can
produce, since the `Whitespace` discriminants are 0..5 — `is_whitespace(v)`
is true iff `whitespace(v)` is not `Whitespace::None`.  (For the unused
field encodings 6 and 7, `is_whitespace` is true while `whitespace` decodes
to `None`.) -/
theorem claim_C9 (v : Nat) (h : (v >>> 1) &&& 7 ≤ 5) :
    ClusterInfo.is_whitespace ⟨v⟩ = true ↔
      ClusterInfo.whitespace ⟨v⟩ ≠ Whitespace.none := by
  simp only [ClusterInfo.is_whitespace, ClusterInfo.whitespace, SPACE_SHIFT, SPACE_MASK]
  generalize hk : (v >>> 1) &&& 7 = k at h ⊢
  have h5 : k = 0 ∨ k = 1 ∨ k = 2 ∨ k = 3 ∨ k = 4 ∨ k = 5 := by omega
  rcases h5 with h5 | h5 | h5 | h5 | h5 | h5 <;> subst h5 <;> decide

/-- Witness for the amended claim C9 at the concrete value 2 (whitespace
field 1, a standard space). -/
theorem claim_C9_witness :
    ClusterInfo.is_whitespace ⟨2⟩ = true ↔
      ClusterInfo.whitespace ⟨2⟩ ≠ Whitespace.none :=
  claim_C9 2 (by decide)

/-! ## Properties lemmas and claims C6, C7, C5 -/

theorem land_record_mask_eq_mod (x : Nat) : x &&& RECORD_MASK = x % 2 ^ 13 := by
  have h := Nat.and_pow_two_sub_one_eq_mod x 13
  norm_num at h
  unfold RECORD_MASK
  norm_num
  exact h

theorem with_boundary_recordIndex (p : Properties) (b : Nat) :
    (p.with_boundary b).recordIndex = p.recordIndex := by
  unfold Properties.with_boundary Properties.set_boundary Properties.recordIndex BOUNDARY_SHIFT
  rw [land_record_mask_eq_mod ((p.val &&& RECORD_MASK) ||| (b &&& 7) <<< 13)]
  rw [lor_mod_two_pow, Nat.shiftLeft_eq, land_record_mask_eq_mod p.val]
  rw [Nat.mul_mod_left, Nat.or_zero, Nat.mod_mod_of_dvd p.val (dvd_refl (2 ^ 13))]

theorem with_boundary_boundary (p : Properties) (b : Nat) :
    (p.with_boundary b).boundary = b &&& 7 := by
  unfold Properties.with_boundary Properties.set_boundary Properties.boundary BOUNDARY_SHIFT
  rw [shiftRight_lor, land_record_mask_eq_mod p.val]
  have h1 : (p.val % 2 ^ 13) >>> 13 = 0 := by
    rw [Nat.shiftRight_eq_div_pow]
    have hlt : p.val % 2 ^ 13 < 2 ^ 13 := Nat.mod_lt _ (by norm_num)
    exact Nat.div_eq_of_lt hlt
  have h2 : (b &&& 7) <<< 13 >>> 13 = b &&& 7 := by
    rw [Nat.shiftLeft_eq, Nat.shiftRight_eq_div_pow]
    exact Nat.mul_div_cancel _ (by norm_num)
  rw [h1, h2, Nat.zero_or]

theorem with_boundary_val_lt (p : Properties) (b : Nat) :
    (p.with_boundary b).val < 65536 := by
  show (p.val &&& RECORD_MASK) ||| (b &&& 7) <<< BOUNDARY_SHIFT < 65536
  have h : (65536 : Nat) = 2 ^ 16 := by norm_num
  rw [h]
  apply Nat.or_lt_two_pow
  · have h1 : p.val &&& RECORD_MASK ≤ RECORD_MASK := Nat.and_le_right
    have h2 : RECORD_MASK = 8191 := rfl
    omega
  · have hb : b &&& 7 ≤ 7 := Nat.and_le_right
    unfold BOUNDARY_SHIFT
    rw [Nat.shiftLeft_eq]
    calc (b &&& 7) * 2 ^ 13 ≤ 7 * 2 ^ 13 := Nat.mul_le_mul_right _ hb
    _ < 2 ^ 16 := by norm_num

theorem with_boundary_record (p : Properties) (b : Nat) :
    (p.with_boundary b).record = p.record := by
  unfold Properties.record
  rw [with_boundary_recordIndex]

/-- Claim C6: for every `Properties` value `p` and boundary value `b`,
`p.with_boundary(b).boundary()` is `b` masked to its low 3 bits, the
representation stays a single 16-bit value, and every record-derived
accessor returns the same value on `p.with_boundary(b)` as on `p`. -/
theorem claim_C6 (p : Properties) (b : Nat) :
    (p.with_boundary b).boundary = b &&& 7
    ∧ (p.with_boundary b).val < 65536
    ∧ (p.with_boundary b).category = p.category
    ∧ (p.with_boundary b).block = p.block
    ∧ (p.with_boundary b).script = p.script
    ∧ (p.with_boundary b).combining_class = p.combining_class
    ∧ (p.with_boundary b).bidi_class = p.bidi_class
    ∧ (p.with_boundary b).joining_type = p.joining_type
    ∧ (p.with_boundary b).cluster_break = p.cluster_break
    ∧ (p.with_boundary b).word_break = p.word_break
    ∧ (p.with_boundary b).line_break = p.line_break
    ∧ (p.with_boundary b).is_emoji = p.is_emoji
    ∧ (p.with_boundary b).is_extended_pictographic = p.is_extended_pictographic
    ∧ (p.with_boundary b).is_open_bracket = p.is_open_bracket
    ∧ (p.with_boundary b).is_close_bracket = p.is_close_bracket
    ∧ (p.with_boundary b).is_ignorable = p.is_ignorable
    ∧ (p.with_boundary b).is_variation_selector = p.is_variation_selector
    ∧ (p.with_boundary b).contributes_to_shaping = p.contributes_to_shaping := by
  have hrec := with_boundary_record p b
  exact ⟨with_boundary_boundary p b, with_boundary_val_lt p b,
    congrArg Record.category hrec, congrArg Record.block hrec,
    congrArg Record.script hrec, congrArg Record.combining_class hrec,
    congrArg Record.bidi_class hrec, congrArg Record.joining_type hrec,
    congrArg Record.cluster_break hrec, congrArg Record.word_break hrec,
    congrArg Record.line_break hrec,
    congrArg (fun r => r.flags.is_emoji) hrec,
    congrArg (fun r => r.flags.is_extended_pictographic) hrec,
    congrArg (fun r => r.flags.is_open_bracket) hrec,
    congrArg (fun r => r.flags.is_close_bracket) hrec,
    congrArg (fun r => r.flags.is_ignorable) hrec,
    congrArg (fun r => r.flags.is_variation_selector) hrec,
    congrArg (fun r => r.flags.contributes_to_shaping) hrec⟩

/-- Claim C7: for every `Properties` value, boolean `w` and `LineBoundary`
`l`, `CharInfo::new(props, w, l)` satisfies `is_word_boundary() == w` and
`line_boundary() == l`, and its `properties()` agree with `props` on all
record-derived accessors. -/
theorem claim_C7 (props : Properties) (w : Bool) (l : LineBoundary) :
    (CharInfo.new props w l).is_word_boundary = w
    ∧ (CharInfo.new props w l).line_boundary = l
    ∧ (CharInfo.new props w l).properties.category = props.category
    ∧ (CharInfo.new props w l).properties.block = props.block
    ∧ (CharInfo.new props w l).properties.script = props.script
    ∧ (CharInfo.new props w l).properties.combining_class = props.combining_class
    ∧ (CharInfo.new props w l).properties.bidi_class = props.bidi_class
    ∧ (CharInfo.new props w l).properties.joining_type = props.joining_type
    ∧ (CharInfo.new props w l).properties.cluster_break = props.cluster_break
    ∧ (CharInfo.new props w l).properties.word_break = props.word_break
    ∧ (CharInfo.new props w l).properties.line_break = props.line_break
    ∧ (CharInfo.new props w l).properties.is_emoji = props.is_emoji
    ∧ (CharInfo.new props w l).properties.is_extended_pictographic
        = props.is_extended_pictographic
    ∧ (CharInfo.new props w l).properties.is_open_bracket = props.is_open_bracket
    ∧ (CharInfo.new props w l).properties.is_close_bracket = props.is_close_bracket
    ∧ (CharInfo.new props w l).properties.is_ignorable = props.is_ignorable
    ∧ (CharInfo.new props w l).properties.is_variation_selector
        = props.is_variation_selector
    ∧ (CharInfo.new props w l).properties.contributes_to_shaping
        = props.contributes_to_shaping := by
  have hrec := with_boundary_record props (((cond w 1 0) <<< 2) ||| l.toRaw)
  have hb := with_boundary_boundary props (((cond w 1 0) <<< 2) ||| l.toRaw)
  refine ⟨?_, ?_, congrArg Record.category hrec, congrArg Record.block hrec,
    congrArg Record.script hrec, congrArg Record.combining_class hrec,
    congrArg Record.bidi_class hrec, congrArg Record.joining_type hrec,
    congrArg Record.cluster_break hrec, congrArg Record.word_break hrec,
    congrArg Record.line_break hrec,
    congrArg (fun r => r.flags.is_emoji) hrec,
    congrArg (fun r => r.flags.is_extended_pictographic) hrec,
    congrArg (fun r => r.flags.is_open_bracket) hrec,
    congrArg (fun r => r.flags.is_close_bracket) hrec,
    congrArg (fun r => r.flags.is_ignorable) hrec,
    congrArg (fun r => r.flags.is_variation_selector) hrec,
    congrArg (fun r => r.flags.contributes_to_shaping) hrec⟩
  · show ((CharInfo.new props w l).props.boundary &&& 4 != 0) = w
    unfold CharInfo.new
    rw [hb]
    cases w <;> cases l <;> decide
  · show LineBoundary.from_raw ((CharInfo.new props w l).props.boundary &&& 3) = l
    unfold CharInfo.new
    rw [hb]
    cases w <;> cases l <;> decide

/-- The set of `Properties` values producible through the public API of
`src/unicode.rs`: the `From` constructors (all of which call
`Properties::new`), `Default` (the zero value), and
`with_boundary`/`set_boundary`. -/
inductive Producible : Properties → Prop where
  | new (ch : Nat) : Producible (Properties.new ch)
  | zero : Producible ⟨0⟩
  | withBoundary (p : Properties) (b : Nat) : Producible p → Producible (p.with_boundary b)

theorem get_record_index_lt (ch : Nat) : get_record_index ch < RECORDS.length := by
  unfold get_record_index
  split
  · split
    · assumption
    · decide
  · decide

theorem new_recordIndex (ch : Nat) :
    (Properties.new ch).recordIndex = get_record_index ch := by
  have h := get_record_index_lt ch
  have hlen : RECORDS.length = 3 := rfl
  unfold Properties.new Properties.recordIndex
  rw [land_record_mask_eq_mod]
  dsimp only
  omega

/-- Claim C5: `Properties::from` succeeds for every codepoint (the record
lookup on the produced value is in bounds), and for every `Properties` value
producible through the public constructors, `Default`, and `with_boundary`,
the low 13 bits are a valid index into the static `RECORDS` table, so the
unchecked array access in `Properties::record` never reads out of bounds. -/
theorem claim_C5 :
    (∀ ch : Nat, (Properties.record? (Properties.new ch)).isSome = true)
    ∧ (∀ p : Properties, Producible p →
        p.recordIndex < RECORDS.length ∧ (Properties.record? p).isSome = true) := by
  have main : ∀ p : Properties, Producible p → p.recordIndex < RECORDS.length := by
    intro p hp
    induction hp with
    | new ch => rw [new_recordIndex]; exact get_record_index_lt ch
    | zero => decide
    | withBoundary q b _ ih => rw [with_boundary_recordIndex]; exact ih
  have hsome : ∀ p : Properties, p.recordIndex < RECORDS.length →
      (Properties.record? p).isSome = true := by
    intro p h
    unfold Properties.record?
    simp [List.getElem?_eq_getElem h]
  exact ⟨fun ch => hsome _ (main _ (Producible.new ch)),
    fun p hp => ⟨main p hp, hsome p (main p hp)⟩⟩

/-- Witness for claim C5 at the concrete codepoint 65 (`A`). -/
theorem claim_C5_witness :
    (Properties.new 65).recordIndex < RECORDS.length
    ∧ (Properties.record? (Properties.new 65)).isSome = true :=
  claim_C5.2 (Properties.new 65) (Producible.new 65)

/-! ## Claim C3 — boundary merge -/

theorem merge_boundary_hi (i : ClusterInfo) (b : Nat) :
    (i.merge_boundary b).val >>> 13 = ((i.val >>> 13) ||| b) % 8 := by
  unfold ClusterInfo.merge_boundary BOUND_SHIFT
  dsimp only
  rw [shiftRight_lor]
  have h1 : (((i.val <<< 3) % 65536) >>> 3) >>> 13 = 0 := by
    rw [← Nat.shiftRight_add]
    norm_num
    rw [Nat.shiftRight_eq_div_pow]
    have hlt : (i.val <<< 3) % 65536 < 65536 := Nat.mod_lt _ (by norm_num)
    exact Nat.div_eq_of_lt (by norm_num; omega)
  have h2 : ((((i.val >>> 13) ||| b) <<< 13) % 65536) >>> 13
      = ((i.val >>> 13) ||| b) % 8 := by
    generalize (i.val >>> 13) ||| b = x
    rw [Nat.shiftLeft_eq, Nat.shiftRight_eq_div_pow]
    norm_num
    omega
  rw [h1, h2, Nat.zero_or]

theorem clusterInfoOf_hi (g : List SourceChar) (i : ClusterInfo) :
    (g.foldl (fun a s => a.merge_boundary s.info.props.boundary) i).val >>> 13
      = g.foldl (fun n s => (n ||| s.info.props.boundary) % 8) (i.val >>> 13) := by
  induction g generalizing i with
  | nil => rfl
  | cons s rest ih =>
    simp only [List.foldl_cons]
    rw [ih (i.merge_boundary s.info.props.boundary), merge_boundary_hi]

theorem foldl_or8_testBit (bs : List Nat) (a : Nat) :
    (bs.foldl (fun n b => (n ||| b) % 8) a).testBit 2
      = (a.testBit 2 || bs.any (fun b => b.testBit 2)) := by
  induction bs generalizing a with
  | nil => simp
  | cons b rest ih =>
    simp only [List.foldl_cons, List.any_cons]
    rw [ih]
    have hstep : ((a ||| b) % 8).testBit 2 = (a.testBit 2 || b.testBit 2) := by
      have h8 : (8 : Nat) = 2 ^ 3 := by norm_num
      rw [h8, Nat.testBit_mod_two_pow, Nat.testBit_or]
      simp
    rw [hstep, Bool.or_assoc]

theorem from_raw_or_step (a b : Nat) :
    LineBoundary.from_raw ((a ||| b) % 8 &&& 3)
      = LineBoundary.maxSeverity (LineBoundary.from_raw (a &&& 3))
          (LineBoundary.from_raw (b &&& 3)) := by
  rw [mod_eight_land_three, land_lor_distrib]
  have ha : a &&& 3 < 4 := by rw [land_three_eq_mod]; omega
  have hb : b &&& 3 < 4 := by rw [land_three_eq_mod]; omega
  have key : ∀ u v : Fin 4, LineBoundary.from_raw (u.val ||| v.val)
      = LineBoundary.maxSeverity (LineBoundary.from_raw u.val)
          (LineBoundary.from_raw v.val) := by decide
  exact key ⟨a &&& 3, ha⟩ ⟨b &&& 3, hb⟩

theorem foldl_or8_line (bs : List Nat) (a : Nat) :
    LineBoundary.from_raw ((bs.foldl (fun n b => (n ||| b) % 8) a) &&& 3)
      = bs.foldl
          (fun m b => LineBoundary.maxSeverity m (LineBoundary.from_raw (b &&& 3)))
          (LineBoundary.from_raw (a &&& 3)) := by
  induction bs generalizing a with
  | nil => rfl
  | cons b rest ih =>
    simp only [List.foldl_cons]
    rw [ih, from_raw_or_step]

/-- Claim C3: for every emitted cluster, `ClusterInfo::is_word_boundary`
equals the logical OR of `is_word_boundary` over the cluster's constituent
characters, and `ClusterInfo::line_boundary` equals the maximum-severity
merge of the constituents' line boundary states, with hard > soft > none.
Every emitted cluster's info is `clusterInfoOf` of its constituent run, so
the statement quantifies over the constituent run. -/
theorem claim_C3 (classify : SourceChar → ShapeClass) (g : List SourceChar) :
    (emitCluster classify g).info.is_word_boundary
      = g.any (fun s => s.info.is_word_boundary)
    ∧ (emitCluster classify g).info.line_boundary
      = (g.map (fun s => s.info.line_boundary)).foldl
          LineBoundary.maxSeverity LineBoundary.none := by
  have hhi : (clusterInfoOf g).val >>> 13
      = (g.map (fun s => s.info.props.boundary)).foldl (fun n b => (n ||| b) % 8) 0 := by
    have h := clusterInfoOf_hi g ⟨0⟩
    rw [List.foldl_map]
    simpa using h
  have hany : ∀ h : List SourceChar,
      (h.map (fun s => s.info.props.boundary)).any (fun b => b.testBit 2)
        = h.any (fun s => s.info.is_word_boundary) := by
    intro h
    induction h with
    | nil => rfl
    | cons s rest ih =>
      simp only [List.map_cons, List.any_cons, ih]
      congr 1
      show (s.info.props.boundary).testBit 2 = (s.info.props.boundary &&& 4 != 0)
      exact (land_four_bne_zero _).symm
  constructor
  · show ((clusterInfoOf g).val >>> BOUND_SHIFT &&& 4 != 0) = _
    unfold BOUND_SHIFT
    rw [land_four_bne_zero, hhi, foldl_or8_testBit]
    simp only [Nat.zero_testBit, Bool.false_or]
    exact hany g
  · show LineBoundary.from_raw ((clusterInfoOf g).val >>> BOUND_SHIFT &&& 3) = _
    unfold BOUND_SHIFT
    rw [hhi, foldl_or8_line, List.foldl_map, List.foldl_map]
    rfl

/-! ## Claims C1, C2 — completeness and boundedness of segmentation -/

theorem segmentGo_flatten (cont : List SourceChar → SourceChar → Bool) (max : Nat) :
    ∀ (rest buf : List SourceChar),
      (segmentGo cont max buf rest).flatten = buf ++ rest := by
  intro rest
  induction rest with
  | nil =>
    intro buf
    simp [segmentGo]
  | cons c rest ih =>
    intro buf
    unfold segmentGo
    split
    · simp [List.flatten_cons, ih]
    · rw [ih (buf ++ [c])]
      simp

theorem segmentRuns_flatten (cont : List SourceChar → SourceChar → Bool) (max : Nat)
    (input : List SourceChar) :
    (segmentRuns cont max input).flatten = input := by
  cases input with
  | nil => rfl
  | cons c rest => exact segmentGo_flatten cont max rest [c]

theorem parseClusters_complete (classify : SourceChar → ShapeClass)
    (cont : List SourceChar → SourceChar → Bool) (max : Nat)
    (input : List SourceChar) :
    ((parseClusters classify cont max input).map Cluster.chars).flatten.map
        (fun c => (c.ch, c.offset))
      = input.map (fun s => (s.ch, s.offset)) := by
  unfold parseClusters
  rw [List.map_map]
  rw [show (Cluster.chars ∘ emitCluster classify)
      = List.map (toChar classify) from rfl]
  rw [← List.map_flatten, segmentRuns_flatten, List.map_map]
  rfl

theorem segmentGo_bounded (cont : List SourceChar → SourceChar → Bool) (max : Nat)
    (hmax : 0 < max) :
    ∀ (rest buf : List SourceChar), buf.length ≤ max →
      ∀ g ∈ segmentGo cont max buf rest, g.length ≤ max := by
  intro rest
  induction rest with
  | nil =>
    intro buf hb g hg
    simp [segmentGo] at hg
    subst hg
    exact hb
  | cons c rest ih =>
    intro buf hb g hg
    unfold segmentGo at hg
    split at hg
    · rcases List.mem_cons.mp hg with h | h
      · subst h
        exact hb
      · exact ih [c] (by simpa using hmax) g h
    · rename_i hcond
      push_neg at hcond
      refine ih (buf ++ [c]) ?_ g hg
      simp only [List.length_append, List.length_cons, List.length_nil]
      omega

theorem parseClusters_bounded (classify : SourceChar → ShapeClass)
    (cont : List SourceChar → SourceChar → Bool) (max : Nat)
    (input : List SourceChar) (hmax : 0 < max) :
    ∀ cl ∈ parseClusters classify cont max input, cl.chars.length ≤ max := by
  intro cl hcl
  unfold parseClusters at hcl
  rcases List.mem_map.mp hcl with ⟨g, hg, hemit⟩
  have hlen : g.length ≤ max := by
    cases input with
    | nil => simp [segmentRuns] at hg
    | cons c rest =>
      exact segmentGo_bounded cont max hmax rest [c] (by simpa using hmax) g hg
  subst hemit
  simpa [emitCluster] using hlen

/-- Claim C1: for every input sequence of `SourceChar`, concatenating the
`Char` entries of all clusters emitted by the parser, in emission order,
reproduces the input character sequence exactly — no character dropped, none
duplicated, and each output `Char` carries the original source offset of its
input character.  The parser model is quantified over the engine's
continuation rule, its shape-class assignment and the cluster size limit. -/
theorem claim_C1 (classify : SourceChar → ShapeClass)
    (cont : List SourceChar → SourceChar → Bool) (max : Nat)
    (input : List SourceChar) :
    ((parseClusters classify cont max input).map Cluster.chars).flatten.map
        (fun c => (c.ch, c.offset))
      = input.map (fun s => (s.ch, s.offset)) :=
  parseClusters_complete classify cont max input

/-- Claim C2: for every input, every cluster emitted by the parser contains
at most `MAX_CLUSTER_SIZE` characters (here the parameter `max`, which must
be positive), and even when the input would exceed the bound every character
is still emitted. -/
theorem claim_C2 (classify : SourceChar → ShapeClass)
    (cont : List SourceChar → SourceChar → Bool) (max : Nat)
    (input : List SourceChar) (hmax : 0 < max) :
    (∀ cl ∈ parseClusters classify cont max input, cl.chars.length ≤ max)
    ∧ ((parseClusters classify cont max input).map Cluster.chars).flatten.map
        (fun c => (c.ch, c.offset)) = input.map (fun s => (s.ch, s.offset)) :=
  ⟨parseClusters_bounded classify cont max input hmax,
   parseClusters_complete classify cont max input⟩

/-- Witness for claim C2: the parser with cluster size limit 1 on a
two-character input. -/
theorem claim_C2_witness :
    (∀ cl ∈ parseClusters (fun _ => ShapeClass.base) (fun _ _ => true) 1
        [SourceChar.default, SourceChar.default], cl.chars.length ≤ 1)
    ∧ ((parseClusters (fun _ => ShapeClass.base) (fun _ _ => true) 1
        [SourceChar.default, SourceChar.default]).map Cluster.chars).flatten.map
          (fun c => (c.ch, c.offset))
        = [SourceChar.default, SourceChar.default].map (fun s => (s.ch, s.offset)) :=
  claim_C2 (fun _ => ShapeClass.base) (fun _ _ => true) 1
    [SourceChar.default, SourceChar.default] (by decide)

/-! ## Claim C10 — subtag iterator ordering -/

theorem languageArm_stage (t : Subtags) (part : List Nat) :
    (languageArm t part).2.stage = ParseStage.script := by
  unfold languageArm
  split <;> rfl


theorem privateArm_spec (t : Subtags) (part : List Nat) :
    isLanguageTag (privateArm t part).1 = false
    ∧ (privateArm t part).2.stage = t.stage := by
  unfold privateArm
  split
  · exact ⟨rfl, rfl⟩
  · dsimp only
    split <;> exact ⟨rfl, rfl⟩

theorem extensionArm_spec (t : Subtags) (part : List Nat) :
    isLanguageTag (extensionArm t part).1 = false
    ∧ ((extensionArm t part).2.stage = t.stage
        ∨ (extensionArm t part).2.stage = ParseStage.private') := by
  unfold extensionArm
  split
  · exact ⟨rfl, Or.inl rfl⟩
  · dsimp only
    split
    · refine ⟨rfl, ?_⟩
      dsimp only
      split
      · exact Or.inr rfl
      · exact Or.inl rfl
    · refine ⟨rfl, ?_⟩
      dsimp only
      split
      · exact Or.inr rfl
      · exact Or.inl rfl

theorem variantArm_spec (t : Subtags) (part : List Nat) :
    isLanguageTag (variantArm t part).1 = false
    ∧ ((variantArm t part).2.stage = t.stage
        ∨ (variantArm t part).2.stage = ParseStage.private'
        ∨ (variantArm t part).2.stage = ParseStage.extension) := by
  unfold variantArm
  split
  · split <;> exact ⟨rfl, Or.inl rfl⟩
  · split <;> exact ⟨rfl, Or.inl rfl⟩
  · split <;> exact ⟨rfl, Or.inl rfl⟩
  · split <;> exact ⟨rfl, Or.inl rfl⟩
  · split <;> exact ⟨rfl, Or.inl rfl⟩
  · split
    · have h := privateArm_spec { t with stage := ParseStage.private' } part
      exact ⟨h.1, Or.inr (Or.inl h.2)⟩
    · have h := extensionArm_spec { t with stage := ParseStage.extension } part
      rcases h.2 with h2 | h2
      · exact ⟨h.1, Or.inr (Or.inr h2)⟩
      · exact ⟨h.1, Or.inr (Or.inl h2)⟩
  · exact ⟨rfl, Or.inl rfl⟩

theorem regionArm_spec (t : Subtags) (part : List Nat) :
    isLanguageTag (regionArm t part).1 = false
    ∧ ((regionArm t part).2.stage = ParseStage.variant
        ∨ (regionArm t part).2.stage = ParseStage.private'
        ∨ (regionArm t part).2.stage = ParseStage.extension) := by
  unfold regionArm
  split
  · exact ⟨rfl, Or.inl rfl⟩
  · split
    · exact ⟨rfl, Or.inl rfl⟩
    · have h := variantArm_spec { t with stage := ParseStage.variant } part
      exact ⟨h.1, h.2⟩

theorem scriptArm_spec (t : Subtags) (part : List Nat) :
    isLanguageTag (scriptArm t part).1 = false
    ∧ ((scriptArm t part).2.stage = ParseStage.region
        ∨ (scriptArm t part).2.stage = ParseStage.variant
        ∨ (scriptArm t part).2.stage = ParseStage.private'
        ∨ (scriptArm t part).2.stage = ParseStage.extension) := by
  unfold scriptArm
  split
  · exact ⟨rfl, Or.inl rfl⟩
  · have h := regionArm_spec { t with stage := ParseStage.region } part
    exact ⟨h.1, Or.inr h.2⟩

theorem Subtags_next_spec (t : Subtags) (h : t.stage ≠ ParseStage.language) :
    isLanguageTag t.next.1 = false ∧ t.next.2.stage ≠ ParseStage.language := by
  unfold Subtags.next
  split
  · exact ⟨rfl, h⟩
  · rename_i x0 part rest heq0
    split
    · rename_i hst
      exact absurd hst h
    · have hspec := scriptArm_spec { t with parts := rest } part
      refine ⟨hspec.1, ?_⟩
      rcases hspec.2 with h2 | h2 | h2 | h2 <;> rw [h2] <;> decide
    · have hspec := regionArm_spec { t with parts := rest } part
      refine ⟨hspec.1, ?_⟩
      rcases hspec.2 with h2 | h2 | h2 <;> rw [h2] <;> decide
    · have hspec := variantArm_spec { t with parts := rest } part
      refine ⟨hspec.1, ?_⟩
      rcases hspec.2 with h2 | h2 | h2
      · rw [h2]
        exact h
      · rw [h2]
        decide
      · rw [h2]
        decide
    · have hspec := extensionArm_spec { t with parts := rest } part
      refine ⟨hspec.1, ?_⟩
      rcases hspec.2 with h2 | h2
      · rw [h2]
        exact h
      · rw [h2]
        decide
    · have hspec := privateArm_spec { t with parts := rest } part
      refine ⟨hspec.1, ?_⟩
      rw [hspec.2]
      exact h

theorem splitBytes_exists (sep : Nat) (l : List Nat) :
    ∃ a as, splitBytes sep l = a :: as := by
  induction l with
  | nil => exact ⟨[], [], rfl⟩
  | cons b rest ih =>
    rcases ih with ⟨a, as, hsplit⟩
    unfold splitBytes
    rw [hsplit]
    dsimp only
    by_cases hb : b = sep
    · rw [if_pos hb]
      exact ⟨[], a :: as, rfl⟩
    · rw [if_neg hb]
      exact ⟨b :: a, as, rfl⟩

theorem subtags_first_call (locale : List Nat) :
    ∃ p ps, splitBytes 45 locale = p :: ps
      ∧ (subtags locale).next
          = languageArm
              { stage := ParseStage.language, source := locale, parts := ps, pos := 0 } p := by
  obtain ⟨p, ps, hps⟩ := splitBytes_exists 45 locale
  refine ⟨p, ps, hps, ?_⟩
  unfold Subtags.next subtags
  dsimp only
  rw [hps]

theorem stateAfter_stage (locale : List Nat) (n : Nat) :
    (subtagsStateAfter locale (n + 1)).stage ≠ ParseStage.language := by
  induction n with
  | zero =>
    show ((subtags locale).next.2).stage ≠ _
    obtain ⟨p, ps, hps, hnext⟩ := subtags_first_call locale
    rw [hnext, languageArm_stage]
    decide
  | succ m ih =>
    show ((subtagsStateAfter locale (m + 1)).next.2).stage ≠ _
    exact (Subtags_next_spec _ ih).2

/-- Claim C10: for every locale, a `Subtag::Language` item can be returned
only by the very first call to `Subtags::next`; every subsequent call
returns a non-`Language` subtag or `None`.  In particular, when the first
`-`-separated part's length is neither 2 nor 3, the first call returns
`None` and no `Language` subtag is ever yielded. -/
theorem claim_C10 (locale : List Nat) (n : Nat) :
    (1 ≤ n → isLanguageTag (subtagsOutput locale n) = false)
    ∧ ((((splitBytes 45 locale).headD []).length ≠ 2
        ∧ ((splitBytes 45 locale).headD []).length ≠ 3) →
        subtagsOutput locale 0 = none
        ∧ ∀ m : Nat, isLanguageTag (subtagsOutput locale m) = false) := by
  have hlater : ∀ k : Nat, isLanguageTag (subtagsOutput locale (k + 1)) = false := by
    intro k
    exact (Subtags_next_spec _ (stateAfter_stage locale k)).1
  constructor
  · intro hn
    obtain ⟨k, rfl⟩ : ∃ k, n = k + 1 := ⟨n - 1, by omega⟩
    exact hlater k
  · intro hlen
    obtain ⟨p, ps, hps, hnext⟩ := subtags_first_call locale
    have hp : ¬ (p.length = 2 ∨ p.length = 3) := by
      rw [hps] at hlen
      simp only [List.headD_cons] at hlen
      omega
    have h0 : subtagsOutput locale 0 = none := by
      show (subtags locale).next.1 = none
      rw [hnext]
      unfold languageArm
      dsimp only
      rw [if_neg hp]
    refine ⟨h0, ?_⟩
    intro m
    cases m with
    | zero =>
      show isLanguageTag (subtagsOutput locale 0) = false
      rw [h0]
      rfl
    | succ k => exact hlater k

/-- Witness for claim C10 at the concrete locale `"q"` (single part of
length 1, so no `Language` subtag is possible). -/
theorem claim_C10_witness :
    isLanguageTag (subtagsOutput [113] 1) = false
    ∧ subtagsOutput [113] 0 = none :=
  ⟨(claim_C10 [113] 1).1 (by decide),
   ((claim_C10 [113] 1).2 ⟨by decide, by decide⟩).1⟩
